import Mathlib

/-!
Verification of the Context_Aware_Chatbot repository.

This file gives a shallow embedding of the repository's core logic and proves
the specification's claims about it:

* `components/chroma_storage.py` — per-user chat-session persistence
  (`save_user_chats`, `load_user_chats`) over a ChromaDB collection, modelled
  as a list of stored records; the JSON round trip `json.loads (json.dumps m)`
  on a message list is the identity, so the serialized document slot is
  modelled by the message list itself. The two error boundaries of the save
  path — the outer except returning `False`, and the inner except that
  swallows a delete failure yet lets the save return `True` — are modelled by
  separate flags.
* `components/vector_store.py` — user-scoped retrieval
  (`retrieve_relevant_context`) over a chunk collection; the nearest-neighbor
  query of the store is modelled as "filter by the metadata clause, order by
  ascending distance, take `n_results`", per the Vector/Document Store
  boundary; the embedding engine is an external collaborator, so query
  embeddings enter as values.
* `app.py` — the conversation orchestrator: session creation, title
  assignment (`get_chat_title`), the sidebar render/delete/clear handlers,
  and the bounded history sent to the language model.

Python's `str(user_id)` for a natural number is embedded as `strNat`, a
fuel-based decimal printer, proved injective below.
-/

def natDigitsAux : Nat → Nat → List Nat
  | 0, _ => []
  | fuel + 1, n => if n < 10 then [n] else natDigitsAux fuel (n / 10) ++ [n % 10]

/-- Decimal digits of `n`, most significant first. -/
def natDigits (n : Nat) : List Nat := natDigitsAux (n + 1) n

def digitToChar : Nat → Char
  | 0 => '0'
  | 1 => '1'
  | 2 => '2'
  | 3 => '3'
  | 4 => '4'
  | 5 => '5'
  | 6 => '6'
  | 7 => '7'
  | 8 => '8'
  | 9 => '9'
  | _ => '?'

/-- Embedding of Python's `str` on a non-negative integer: decimal notation. -/
def strNat (n : Nat) : String := ⟨(natDigits n).map digitToChar⟩

example : strNat 0 = "0" := rfl
example : strNat 42 = "42" := rfl
example : strNat 1203 = "1203" := rfl

theorem natDigitsAux_foldl (fuel : Nat) : ∀ n a, n < 10 ^ fuel →
    (natDigitsAux fuel n).foldl (fun a d => a * 10 + d) a
      = a * 10 ^ (natDigitsAux fuel n).length + n := by
  induction fuel with
  | zero =>
    intro n a h
    simp only [pow_zero, Nat.lt_one_iff] at h
    subst h
    simp [natDigitsAux]
  | succ fuel ih =>
    intro n a h
    by_cases hn : n < 10
    · simp [natDigitsAux, hn]
    · have hdiv : n / 10 < 10 ^ fuel := by
        rw [Nat.div_lt_iff_lt_mul (by norm_num)]
        calc n < 10 ^ (fuel + 1) := h
        _ = 10 ^ fuel * 10 := by rw [pow_succ]
      simp only [natDigitsAux, if_neg hn, List.foldl_append, List.length_append,
        List.foldl_cons, List.foldl_nil, List.length_cons, List.length_nil]
      rw [ih (n / 10) a hdiv]
      have hdm : n / 10 * 10 + n % 10 = n := by
        rw [Nat.mul_comm]
        exact Nat.div_add_mod n 10
      have hring : (a * 10 ^ (natDigitsAux fuel (n / 10)).length + n / 10) * 10 + n % 10
          = a * 10 ^ ((natDigitsAux fuel (n / 10)).length + (0 + 1)) + (n / 10 * 10 + n % 10) := by
        ring
      rw [hring, hdm]

theorem natDigits_foldl (n : Nat) (a : Nat) :
    (natDigits n).foldl (fun a d => a * 10 + d) a = a * 10 ^ (natDigits n).length + n := by
  have h10 : n < 10 ^ (n + 1) := by
    calc n < 2 ^ n := Nat.lt_two_pow n
    _ ≤ 10 ^ n := Nat.pow_le_pow_left (by norm_num) n
    _ ≤ 10 ^ (n + 1) := Nat.pow_le_pow_right (by norm_num) (Nat.le_succ n)
  exact natDigitsAux_foldl (n + 1) n a h10

theorem undigits_natDigits (n : Nat) :
    (natDigits n).foldl (fun a d => a * 10 + d) 0 = n := by
  rw [natDigits_foldl]
  simp

theorem natDigits_injective {m n : Nat} (h : natDigits m = natDigits n) : m = n := by
  have := undigits_natDigits m
  rw [h, undigits_natDigits] at this
  omega

theorem natDigitsAux_lt_ten (fuel : Nat) : ∀ n d, d ∈ natDigitsAux fuel n → d < 10 := by
  induction fuel with
  | zero => intro n d h; simp [natDigitsAux] at h
  | succ fuel ih =>
    intro n d h
    by_cases hn : n < 10
    · simp [natDigitsAux, hn] at h
      omega
    · simp only [natDigitsAux, if_neg hn, List.mem_append, List.mem_singleton] at h
      rcases h with h | h
      · exact ih (n / 10) d h
      · subst h; exact Nat.mod_lt n (by norm_num)

theorem digitToChar_inj : ∀ d1 < 10, ∀ d2 < 10, digitToChar d1 = digitToChar d2 → d1 = d2 := by
  decide

theorem map_digitToChar_inj : ∀ l1 l2 : List Nat, (∀ d ∈ l1, d < 10) → (∀ d ∈ l2, d < 10) →
    l1.map digitToChar = l2.map digitToChar → l1 = l2 := by
  intro l1
  induction l1 with
  | nil => intro l2 _ _ h; cases l2 <;> simp_all
  | cons x xs ih =>
    intro l2 h1 h2 h
    cases l2 with
    | nil => simp at h
    | cons y ys =>
      simp only [List.map_cons, List.cons.injEq] at h
      have hx : x = y := digitToChar_inj x (h1 x (by simp)) y (h2 y (by simp)) h.1
      have hxs : xs = ys := ih ys (fun d hd => h1 d (by simp [hd])) (fun d hd => h2 d (by simp [hd])) h.2
      rw [hx, hxs]

theorem strNat_injective {m n : Nat} (h : strNat m = strNat n) : m = n := by
  have hd : (natDigits m).map digitToChar = (natDigits n).map digitToChar :=
    congrArg String.data h
  exact natDigits_injective
    (map_digitToChar_inj _ _ (natDigitsAux_lt_ten _ m) (natDigitsAux_lt_ten _ n) hd)

/-! ## Data model: messages, sessions, and the persisted chat collection -/

structure Message where
  role : String
  content : String
deriving DecidableEq

structure ChatData where
  messages : List Message
  title : String
  created_at : String
deriving DecidableEq

/-- The in-memory `chat_sessions` dictionary: insertion-ordered association
list from chat id to session data, with unique keys (Python dict). -/
abbrev ChatSessions := List (String × ChatData)

/-- One record of the `user_chats` ChromaDB collection, as written by
`save_user_chats`: a document (the JSON-serialized message list, modelled by
the list itself) plus its metadata fields. -/
structure StoredChat where
  doc_id : String
  messages : List Message
  user_id : String
  chat_id : String
  title : String
  created_at : String
  is_current : String
deriving DecidableEq

abbrev ChatStore := List StoredChat

/-- The record `save_user_chats` builds for one `(chat_id, chat_data)` item:
document `json.dumps(chat_data['messages'])` with metadata
`user_id`, `chat_id`, `title`, `created_at`,
`is_current = str(chat_id == current_chat_id)`. -/
def mkStoredChat (user_id : Nat) (current_chat_id : String) (p : String × ChatData) :
    StoredChat :=
  { doc_id := "user_" ++ strNat user_id ++ "_chat_" ++ p.1
    messages := p.2.messages
    user_id := strNat user_id
    chat_id := p.1
    title := p.2.title
    created_at := p.2.created_at
    is_current := if p.1 = current_chat_id then "True" else "False" }

/-- Embedding of `save_user_chats` (components/chroma_storage.py). The body
has two distinct error boundaries and they are modelled separately. The outer
`try/except` covers the whole operation: `ok = false` models a failure of
client initialization, before any write, and returns `False`. The inner
`try/except` wraps only the fetch-existing-ids/delete step and swallows its
error with a print, after which the function continues to the add:
`deleteOk = false` models a swallowed delete failure, so the records whose
`user_id` metadata equals `str(user_id)` are NOT removed, the new records are
still added, and the save still returns `True`. With `deleteOk = true` the
delete step removes every record of this user before the add. -/
def save_user_chats (ok deleteOk : Bool) (store : ChatStore) (user_id : Nat)
    (chat_sessions : ChatSessions) (current_chat_id : String) : ChatStore × Bool :=
  if ok then
    let afterDelete :=
      if deleteOk then store.filter (fun r => !(r.user_id = strNat user_id)) else store
    let newRecords := chat_sessions.map (mkStoredChat user_id current_chat_id)
    (afterDelete ++ newRecords, true)
  else (store, false)

/-- Python dict assignment `d[k] = v`: replace in place if the key exists,
otherwise append. -/
def insertReplace (l : ChatSessions) (k : String) (v : ChatData) : ChatSessions :=
  if l.any (fun p => p.1 = k) then
    l.map (fun p => if p.1 = k then (k, v) else p)
  else l ++ [(k, v)]

/-- One iteration of the reconstruction loop of `load_user_chats`: rebuild the
session from document and metadata, and remember the chat id whose
`is_current` metadata is the string `"True"`. -/
def loadStep (acc : ChatSessions × Option String) (r : StoredChat) :
    ChatSessions × Option String :=
  (insertReplace acc.1 r.chat_id ⟨r.messages, r.title, r.created_at⟩,
   if r.is_current = "True" then some r.chat_id else acc.2)

/-- Embedding of `load_user_chats` (components/chroma_storage.py): get all records whose
`user_id` metadata equals `str(user_id)`; on an empty result or on any
backend error (`ok = false`) return `({}, None)`; otherwise rebuild the
session dictionary and the active chat id. -/
def load_user_chats (ok : Bool) (store : ChatStore) (user_id : Nat) :
    ChatSessions × Option String :=
  if ok then
    let results := store.filter (fun r => r.user_id = strNat user_id)
    if results.isEmpty then ([], none)
    else results.foldl loadStep ([], none)
  else ([], none)

/-! ## App-side session lifecycle (app.py) -/

/-- The fresh session inserted by `create_new_chat`. -/
def newChatData (created_at : String) : ChatData :=
  { messages := [], title := "New Chat", created_at := created_at }

/-- Embedding of `create_new_chat`: put a fresh session under a new uuid key and return
that id. -/
def create_new_chat (sessions : ChatSessions) (chat_id created_at : String) :
    ChatSessions × String :=
  (insertReplace sessions chat_id (newChatData created_at), chat_id)

/-- Embedding of `get_chat_title`: first user message truncated to 50 characters, with
`"..."` appended when the original is longer; `"New Chat"` otherwise. -/
def get_chat_title (messages : List Message) : String :=
  match messages with
  | m :: _ =>
    if m.role = "user" then
      if 50 < m.content.length then m.content.take 50 ++ "..." else m.content.take 50
    else "New Chat"
  | [] => "New Chat"

/-- Python's `a or b` for an optional string `a`: `b` when `a` is `None` or
empty, else the string. -/
def pyOrString (a : Option String) (b : String) : String :=
  match a with
  | some s => if s = "" then b else s
  | none => b

/-- The `chat_sessions` initialization block of app.py: adopt the loaded
sessions (falling back to the first key when no active id was flagged), or
create a first chat when the load came back empty. -/
def initChatSessions (loaded : ChatSessions × Option String) (fresh_id created_at : String) :
    ChatSessions × String :=
  if loaded.1.isEmpty then
    ([(fresh_id, newChatData created_at)], fresh_id)
  else
    (loaded.1, pyOrString loaded.2 (((loaded.1.head?).map Prod.fst).getD ""))

/-- The sidebar delete handler: the delete button exists only while more than
one chat exists and only for a listed chat id; deletion removes the dict
entry and, when the active chat was deleted, switches to the first remaining
key. -/
def delete_chat (sessions : ChatSessions) (current chat_id : String) :
    ChatSessions × String :=
  if 1 < sessions.length ∧ sessions.any (fun p => p.1 = chat_id) then
    (sessions.eraseP (fun p => p.1 = chat_id),
     if chat_id = current then
       (((sessions.eraseP (fun p => p.1 = chat_id)).head?).map Prod.fst).getD ""
     else current)
  else (sessions, current)

/-- User-visible operations that touch the active session's data in app.py. -/
inductive AppEvent where
  /-- A completed turn: the user message is appended, the model streams a
  reply which is appended after the stream ends, and the title is rewritten
  from `get_chat_title` when the session now holds exactly two messages. -/
  | exchange (prompt response : String)
  /-- A sidebar render: for a session with messages, the title is recomputed
  by `get_chat_title`. -/
  | render
  /-- The Clear Current Chat button: the message list is emptied. -/
  | clearChat
  /-- Switching to another chat: this session is untouched. -/
  | switchAway
deriving DecidableEq

/-- Effect of one app event on one session's data. -/
def stepSession (s : ChatData) : AppEvent → ChatData
  | .exchange prompt response =>
    let msgs := s.messages ++ [⟨"user", prompt⟩, ⟨"assistant", response⟩]
    { s with
      messages := msgs
      title := if msgs.length = 2 then get_chat_title msgs else s.title }
  | .render =>
    if s.messages.isEmpty then s else { s with title := get_chat_title s.messages }
  | .clearChat => { s with messages := [] }
  | .switchAway => s

/-! ## Vector store: user file chunks and retrieval (components/vector_store.py) -/

/-- One record of the `userFiles` ChromaDB collection, as written by
`process_and_store_pdf`: chunk text, its embedding vector (rationals stand
for the floating-point coordinates), and the metadata fields. -/
structure FileChunk where
  doc_id : String
  text : String
  embedding : List ℚ
  user_id : String
  filename : String
  chunk_index : String
  total_chunks : String
  uploaded_at : String
  page_number : String
deriving DecidableEq

/-- Squared L2 distance, the metric of a ChromaDB collection created with
default settings. -/
def sqDist (xs ys : List ℚ) : ℚ := ((xs.zip ys).map (fun p => (p.1 - p.2) ^ 2)).sum

/-- The score `similarity = 1 / (1 + distance)` as computed in
`retrieve_relevant_context`. -/
def similarityOf (distance : ℚ) : ℚ := 1 / (1 + distance)

/-- The store call `collection.query(query_embeddings=[qe], n_results=top_k, where=...)`:
the store restricts to records whose `user_id` metadata equals the filter
value, orders them by ascending distance to the query embedding, and returns
the first `n_results` together with their distances. -/
def chromaQuery (store : List FileChunk) (query_embedding : List ℚ) (n_results : Nat)
    (uid : String) : List (FileChunk × ℚ) :=
  ((((store.filter (fun c => c.user_id = uid)).map
      (fun c => (c, sqDist query_embedding c.embedding))).mergeSort
        (fun a b => decide (a.2 ≤ b.2))).take n_results)

/-- One entry of the `contexts` list built by `retrieve_relevant_context`. -/
structure ContextSnippet where
  text : String
  filename : String
  page : String
  similarity : ℚ
deriving DecidableEq

def mkSnippet (c : FileChunk) (distance : ℚ) : ContextSnippet :=
  { text := c.text
    filename := c.filename
    page := c.page_number
    similarity := similarityOf distance }

/-- Embedding of `retrieve_relevant_context` (components/vector_store.py). The app calls
it with `top_k = 3`. `backend = none` models any exception raised by the
store or the embedding engine: the `except` branch returns `(False, [])`.
Otherwise: query scoped to `str(user_id)`, keep results whose similarity
exceeds `0.4`, and return `(True, contexts)` or `(False, [])` when nothing
survives. -/
def retrieve_relevant_context (backend : Option (List FileChunk)) (user_id : Nat)
    (query_embedding : List ℚ) (top_k : Nat) : Bool × List ContextSnippet :=
  match backend with
  | none => (false, [])
  | some store =>
    let results := chromaQuery store query_embedding top_k (strNat user_id)
    if results.isEmpty then (false, [])
    else
      let contexts := results.filterMap (fun p =>
        if (0.4 : ℚ) < similarityOf p.2 then some (mkSnippet p.1 p.2) else none)
      if contexts.isEmpty then (false, []) else (true, contexts)

/-! ## Prompt assembly and the conversation turn (app.py) -/

/-- Embedding of `format_context_for_llm` (components/vector_store.py). -/
def format_context_for_llm (contexts : List ContextSnippet) : String :=
  if contexts.isEmpty then ""
  else
    "**Relevant information from your uploaded documents:**\n\n" ++
      String.join ((contexts.enumFrom 1).map (fun p =>
        "**Source " ++ strNat p.1 ++ "** (from " ++ p.2.filename ++ ", page " ++
          p.2.page ++ "):\n" ++ p.2.text ++ "\n\n"))

/-- The RAG system-instruction block built around `format_context_for_llm`
in app.py's turn handler. -/
def rag_instruction (contexts : List ContextSnippet) : String :=
  "The user has uploaded some documents. Here is relevant information:\n\n" ++
    format_context_for_llm contexts ++
    "\n\nUse this information to answer the user's question if it's relevant. If you are using the reference then add \"Using Reference:\" before your response."

/-- The list `system_content_parts`: the stripped global instruction when non-empty,
then the RAG block when context was retrieved. -/
def system_content_parts (global_context : String) (has_context : Bool)
    (contexts : List ContextSnippet) : List String :=
  (if global_context.trim = "" then [] else [global_context.trim]) ++
    (if has_context && !contexts.isEmpty then [rag_instruction contexts] else [])

/-- The optional system message put in front of the history. -/
def system_message_list (global_context : String) (has_context : Bool)
    (contexts : List ContextSnippet) : List Message :=
  if (system_content_parts global_context has_context contexts).isEmpty then []
  else [{ role := "system"
          content := String.intercalate "\n\n" (system_content_parts global_context has_context contexts) }]

def MAX_CONTEXT_MESSAGES : Nat := 20

/-- Embedding of `current_messages[-MAX_CONTEXT_MESSAGES:] if len(current_messages) >
MAX_CONTEXT_MESSAGES else current_messages`. -/
def recent_messages (current_messages : List Message) : List Message :=
  if MAX_CONTEXT_MESSAGES < current_messages.length then
    current_messages.drop (current_messages.length - MAX_CONTEXT_MESSAGES)
  else current_messages

/-- The list `messages_for_llm`: optional system message followed by the recent
conversation history. -/
def messages_for_llm (global_context : String) (has_context : Bool)
    (contexts : List ContextSnippet) (current_messages : List Message) : List Message :=
  system_message_list global_context has_context contexts ++ recent_messages current_messages

/-- One turn of the chat handler, given the streamed reply: append the user
message, build the LLM message list from it, and append the completed
assistant message. Returns (session messages after the turn, messages sent to
the model). -/
def run_turn (global_context : String) (has_context : Bool)
    (contexts : List ContextSnippet) (messages : List Message)
    (prompt response : String) : List Message × List Message :=
  let withUser := messages ++ [⟨"user", prompt⟩]
  (withUser ++ [⟨"assistant", response⟩],
   messages_for_llm global_context has_context contexts withUser)

/-! ## Helper lemmas: the persisted chat collection -/

theorem insertReplace_append (l : ChatSessions) (k : String) (v : ChatData)
    (h : k ∉ l.map Prod.fst) : insertReplace l k v = l ++ [(k, v)] := by
  unfold insertReplace
  rw [if_neg]
  intro hany
  rcases List.any_eq_true.mp hany with ⟨p, hp, he⟩
  exact h (by
    rcases of_decide_eq_true he with h1
    exact h1 ▸ List.mem_map_of_mem Prod.fst hp)

theorem mkStoredChat_user_id (u : Nat) (active : String) (p : String × ChatData) :
    (mkStoredChat u active p).user_id = strNat u := rfl

theorem mkStoredChat_chat_id (u : Nat) (active : String) (p : String × ChatData) :
    (mkStoredChat u active p).chat_id = p.1 := rfl

theorem load_foldl (u : Nat) (active : String) :
    ∀ (S : ChatSessions) (acc : ChatSessions) (cur : Option String),
      (S.map Prod.fst).Nodup →
      (∀ k ∈ S.map Prod.fst, k ∉ acc.map Prod.fst) →
      (S.map (mkStoredChat u active)).foldl loadStep (acc, cur)
        = (acc ++ S, if active ∈ S.map Prod.fst then some active else cur) := by
  intro S
  induction S with
  | nil => intro acc cur _ _; simp
  | cons p rest ih =>
    obtain ⟨k, d⟩ := p
    intro acc cur hnodup hdisj
    have hk : k ∉ acc.map Prod.fst := hdisj k (by simp)
    have hstep : loadStep (acc, cur) (mkStoredChat u active (k, d))
        = (acc ++ [(k, d)], if k = active then some k else cur) := by
      unfold loadStep mkStoredChat
      simp only
      rw [insertReplace_append acc k _ hk]
      by_cases hka : k = active
      · simp [hka]
      · simp [hka]
    simp only [List.map_cons, List.foldl_cons, hstep]
    have hnodup' : (k :: rest.map Prod.fst).Nodup := by simpa using hnodup
    have hnd := List.nodup_cons.mp hnodup'
    have hdisj' : ∀ k' ∈ rest.map Prod.fst, k' ∉ (acc ++ [(k, d)]).map Prod.fst := by
      intro k' hk'
      rw [List.map_append]
      intro hmem
      rcases List.mem_append.mp hmem with hmem | hmem
      · exact hdisj k' (by simp [hk']) hmem
      · simp only [List.map_cons, List.map_nil, List.mem_singleton] at hmem
        exact hnd.1 (hmem ▸ hk')
    rw [ih (acc ++ [(k, d)]) (if k = active then some k else cur) hnd.2 hdisj']
    rw [Prod.mk.injEq]
    refine ⟨?_, ?_⟩
    · simp
    · by_cases hra : active ∈ rest.map Prod.fst
      · simp [hra]
      · by_cases hka : k = active
        · subst hka
          simp [hra]
        · have : active ∉ (k :: rest.map Prod.fst) := by
            intro hmem
            rcases List.mem_cons.mp hmem with h | h
            · exact hka h.symm
            · exact hra h
          simp only [List.map_cons] at *
          rw [if_neg hra, if_neg this, if_neg hka]

theorem save_filter_eq (store : ChatStore) (u : Nat) (S : ChatSessions) (active : String) :
    (save_user_chats true true store u S active).1.filter (fun r => r.user_id = strNat u)
      = S.map (mkStoredChat u active) := by
  unfold save_user_chats
  simp only [if_pos trivial, List.filter_append]
  have h1 : (store.filter (fun r => !(r.user_id = strNat u))).filter
      (fun r => r.user_id = strNat u) = [] := by
    rw [List.filter_eq_nil_iff]
    intro r hr
    have := (List.mem_filter.mp hr).2
    simp only [Bool.not_eq_true'] at this
    simp [this]
  have h2 : (S.map (mkStoredChat u active)).filter (fun r => r.user_id = strNat u)
      = S.map (mkStoredChat u active) := by
    rw [List.filter_eq_self]
    intro r hr
    rcases List.mem_map.mp hr with ⟨p, _, hp⟩
    simp [← hp, mkStoredChat_user_id]
  rw [h1, h2, List.nil_append]

/-- Fixture for the swallowed-delete counterexamples: a previously persisted
session of user 7 that the current in-memory collection no longer contains. -/
def staleStored : StoredChat :=
  { doc_id := "user_7_chat_old", messages := [], user_id := strNat 7, chat_id := "old"
    title := "Old", created_at := "t0", is_current := "False" }

/-- Fixture: the in-memory collection of user 7 at save time. -/
def exSessions : ChatSessions :=
  [("a", { messages := [⟨"user", "hi"⟩, ⟨"assistant", "yo"⟩], title := "hi", created_at := "t1" })]

set_option maxRecDepth 8000

/-- Counterexample to C2 as stated: the inner `try/except` of
`save_user_chats` swallows a failing delete and the function still returns
`True`; after that save, which the caller can only observe as successful,
the load returns the stale session merged with `S`, not `S`. -/
theorem save_load_round_trip_counterexample :
    (save_user_chats true false [staleStored] 7 exSessions "a").2 = true
    ∧ load_user_chats true (save_user_chats true false [staleStored] 7 exSessions "a").1 7
        ≠ (exSessions, some "a") := by
  refine ⟨rfl, ?_⟩
  decide

/-- C2 amended: a `save(U, S, active)` during which no backend error occurred
— in particular one whose delete step was not swallowed by the inner except —
followed by `load(U)` returns the session collection `S` itself — same chat
ids mapped to equal messages, title and timestamp — and the active id
`active`, for any prior state of the store, provided the in-memory dictionary
has distinct keys and `active` is one of them. -/
theorem save_load_round_trip (store : ChatStore) (u : Nat) (S : ChatSessions)
    (active : String) (hnodup : (S.map Prod.fst).Nodup)
    (hactive : active ∈ S.map Prod.fst) :
    load_user_chats true (save_user_chats true true store u S active).1 u = (S, some active) := by
  unfold load_user_chats
  simp only [if_pos trivial, save_filter_eq store u S active]
  have hne : S ≠ [] := by
    intro h
    rw [h] at hactive
    simp at hactive
  have hempty : (S.map (mkStoredChat u active)).isEmpty = false := by
    rw [List.isEmpty_eq_false_iff_exists_mem]
    cases S with
    | nil => exact absurd rfl hne
    | cons p rest => exact ⟨mkStoredChat u active p, by simp⟩
  rw [hempty]
  simp only [Bool.false_eq_true, if_false]
  rw [load_foldl u active S [] none hnodup (by simp)]
  simp [hactive]

/-- Witness for the amended C2 at a concrete store and session collection. -/
theorem save_load_round_trip_witness :
    load_user_chats true
        (save_user_chats true true [] 7
          [("a", { messages := [⟨"user", "hi"⟩, ⟨"assistant", "yo"⟩], title := "hi", created_at := "t1" }),
           ("b", { messages := [], title := "New Chat", created_at := "t2" })] "b").1 7
      = ([("a", { messages := [⟨"user", "hi"⟩, ⟨"assistant", "yo"⟩], title := "hi", created_at := "t1" }),
          ("b", { messages := [], title := "New Chat", created_at := "t2" })], some "b") :=
  save_load_round_trip [] 7 _ "b" (by decide) (by decide)

/-- Counterexample to C3 as stated: a save whose swallowed delete failed but
whose add succeeded returns `True` — a successful save as far as the caller
can tell — yet the previously persisted session `"old"`, absent from the
in-memory collection, survives in the user's partition of the store and
reappears in the next load. -/
theorem save_full_replace_counterexample :
    (save_user_chats true false [staleStored] 7 exSessions "a").2 = true
    ∧ ((save_user_chats true false [staleStored] 7 exSessions "a").1.filter
          (fun r => r.user_id = strNat 7)).map (fun r => r.chat_id) = ["old", "a"]
    ∧ "old" ∈ (load_user_chats true
          (save_user_chats true false [staleStored] 7 exSessions "a").1 7).1.map Prod.fst := by
  refine ⟨rfl, by decide, by decide⟩

/-- C3 amended: a save whose delete step actually ran (was not swallowed by
the inner except) is a full replacement of the user's persisted sessions:
afterwards the records carrying this user's id are exactly those of the
current in-memory collection (same chat ids, in order), the save reports
success, and no chat id absent from the in-memory collection survives in the
user's partition of the store. -/
theorem save_full_replace (store : ChatStore) (u : Nat) (S : ChatSessions)
    (active : String) :
    ((save_user_chats true true store u S active).1.filter
        (fun r => r.user_id = strNat u)).map (fun r => r.chat_id) = S.map Prod.fst
    ∧ (save_user_chats true true store u S active).2 = true
    ∧ ∀ cid, cid ∉ S.map Prod.fst →
        ∀ r ∈ (save_user_chats true true store u S active).1,
          r.user_id = strNat u → r.chat_id ≠ cid := by
  refine ⟨?_, rfl, ?_⟩
  · rw [save_filter_eq store u S active, List.map_map]
    rfl
  · intro cid hcid r hr hru hrc
    have hrf : r ∈ (save_user_chats true true store u S active).1.filter
        (fun r => r.user_id = strNat u) := List.mem_filter.mpr ⟨hr, by simp [hru]⟩
    rw [save_filter_eq store u S active] at hrf
    rcases List.mem_map.mp hrf with ⟨p, hp, hpr⟩
    apply hcid
    rw [← hrc, ← hpr, mkStoredChat_chat_id]
    exact List.mem_map_of_mem Prod.fst hp

/-- Witness for the amended C3: starting from a store holding the stale
session `"old"` of user 7, a save whose delete step ran leaves exactly `"a"`
as the user's persisted chat id, and the surviving user-7 record is not
`"old"`. -/
theorem save_full_replace_witness :
    ((save_user_chats true true [staleStored] 7 exSessions "a").1.filter
        (fun r => r.user_id = strNat 7)).map (fun r => r.chat_id) = ["a"]
    ∧ (mkStoredChat 7 "a"
        ("a", { messages := [⟨"user", "hi"⟩, ⟨"assistant", "yo"⟩], title := "hi",
                created_at := "t1" })).chat_id ≠ "old" :=
  ⟨(save_full_replace [staleStored] 7 exSessions "a").1,
   (save_full_replace [staleStored] 7 exSessions "a").2.2
     "old" (by decide)
     (mkStoredChat 7 "a"
       ("a", { messages := [⟨"user", "hi"⟩, ⟨"assistant", "yo"⟩], title := "hi",
               created_at := "t1" }))
     (by decide) rfl⟩

/-- C10: a load that hits any backend error returns exactly what a load over
an empty store returns — an empty collection and no active id — and the
app's initialization block then creates a fresh initial session over it. -/
theorem load_failure_as_empty (store : ChatStore) (u : Nat) (fid created : String) :
    load_user_chats false store u = load_user_chats true [] u
    ∧ load_user_chats false store u = ([], none)
    ∧ initChatSessions (load_user_chats false store u) fid created
        = ([(fid, newChatData created)], fid) :=
  ⟨rfl, rfl, rfl⟩

/-- C8: when the vector store or embedding backend raises during retrieval,
`retrieve_relevant_context` swallows the error and returns the "no context"
result `(False, [])`; with that result the turn handler builds the LLM
message list with no retrieval block — just the optional global instruction
followed by the recent history — so the turn is answered without retrieved
context. -/
theorem retrieve_fail_soft (u : Nat) (qe : List ℚ) (top_k : Nat)
    (gc : String) (msgs : List Message) :
    retrieve_relevant_context none u qe top_k = (false, [])
    ∧ messages_for_llm gc false [] msgs
        = (if gc.trim = "" then [] else [{ role := "system", content := gc.trim }])
            ++ recent_messages msgs := by
  refine ⟨rfl, ?_⟩
  unfold messages_for_llm system_message_list system_content_parts
  by_cases hgc : gc.trim = ""
  · simp [hgc]
  · simp only [if_neg hgc, Bool.false_and, Bool.false_eq_true, if_false, List.append_nil,
      List.isEmpty_cons, String.intercalate]
    rfl

/-! ## Helper lemmas: retrieval -/

theorem sqDist_nonneg (xs ys : List ℚ) : 0 ≤ sqDist xs ys := by
  unfold sqDist
  apply List.sum_nonneg
  intro x hx
  rcases List.mem_map.mp hx with ⟨p, _, hp⟩
  rw [← hp]
  exact sq_nonneg _

theorem similarityOf_pos {d : ℚ} (h : 0 ≤ d) : 0 < similarityOf d := by
  unfold similarityOf
  positivity

theorem similarityOf_le_one {d : ℚ} (h : 0 ≤ d) : similarityOf d ≤ 1 := by
  unfold similarityOf
  rw [div_le_one (by linarith)]
  linarith

theorem similarityOf_antitone {d1 d2 : ℚ} (h1 : 0 ≤ d1) (h12 : d1 ≤ d2) :
    similarityOf d2 ≤ similarityOf d1 :=
  one_div_le_one_div_of_le (by linarith) (by linarith)

theorem mem_chromaQuery {store : List FileChunk} {qe : List ℚ} {k : Nat} {uid : String}
    {p : FileChunk × ℚ} (h : p ∈ chromaQuery store qe k uid) :
    p.1 ∈ store ∧ p.1.user_id = uid ∧ p.2 = sqDist qe p.1.embedding := by
  unfold chromaQuery at h
  have h1 := List.mem_of_mem_take h
  rw [List.mem_mergeSort] at h1
  rcases List.mem_map.mp h1 with ⟨c, hc, hcp⟩
  have hcf := List.mem_filter.mp hc
  refine ⟨?_, ?_, ?_⟩
  · rw [← hcp]; exact hcf.1
  · rw [← hcp]; exact of_decide_eq_true hcf.2
  · rw [← hcp]

theorem chromaQuery_sorted (store : List FileChunk) (qe : List ℚ) (k : Nat) (uid : String) :
    (chromaQuery store qe k uid).Pairwise (fun a b => a.2 ≤ b.2) := by
  unfold chromaQuery
  apply List.Pairwise.take
  have hs := @List.sorted_mergeSort (FileChunk × ℚ)
    (fun a b => decide (a.2 ≤ b.2))
    (fun a b c hab hbc => by
      rw [decide_eq_true_iff] at *
      exact le_trans hab hbc)
    (fun a b => by
      rcases le_total a.2 b.2 with h | h <;> simp [h])
    ((store.filter (fun c => c.user_id = uid)).map
      (fun c => (c, sqDist qe c.embedding)))
  exact hs.imp (fun h => of_decide_eq_true h)

/-- The returned snippet list of a non-erroring retrieval, in every branch,
is the filter-map of the query result through the threshold test. -/
theorem retrieve_snd_eq (store : List FileChunk) (u : Nat) (qe : List ℚ) (top_k : Nat) :
    (retrieve_relevant_context (some store) u qe top_k).2
      = (chromaQuery store qe top_k (strNat u)).filterMap (fun p =>
          if (0.4 : ℚ) < similarityOf p.2 then some (mkSnippet p.1 p.2) else none) := by
  unfold retrieve_relevant_context
  by_cases hres : (chromaQuery store qe top_k (strNat u)).isEmpty
  · simp only [hres, if_true]
    rw [List.isEmpty_iff] at hres
    rw [hres]
    rfl
  · simp only [hres, Bool.false_eq_true, if_false]
    by_cases hctx : ((chromaQuery store qe top_k (strNat u)).filterMap (fun p =>
        if (0.4 : ℚ) < similarityOf p.2 then some (mkSnippet p.1 p.2) else none)).isEmpty
    · simp only [hctx, if_true]
      rw [List.isEmpty_iff] at hctx
      rw [hctx]
    · simp only [hctx, Bool.false_eq_true, if_false]

theorem mem_retrieve_snd {store : List FileChunk} {u : Nat} {qe : List ℚ} {top_k : Nat}
    {ctx : ContextSnippet} (h : ctx ∈ (retrieve_relevant_context (some store) u qe top_k).2) :
    ∃ p ∈ chromaQuery store qe top_k (strNat u),
      (0.4 : ℚ) < similarityOf p.2 ∧ ctx = mkSnippet p.1 p.2 := by
  rw [retrieve_snd_eq] at h
  rcases List.mem_filterMap.mp h with ⟨p, hp, hpe⟩
  by_cases hth : (0.4 : ℚ) < similarityOf p.2
  · rw [if_pos hth] at hpe
    exact ⟨p, hp, hth, (Option.some.injEq _ _ ▸ hpe).symm⟩
  · rw [if_neg hth] at hpe
    exact absurd hpe (by simp)

/-- C1: retrieval for user `u1` only ever returns snippets built from chunks
whose stored owner metadata is `str(u1)`; for any other user `u2`, no chunk
owned by `u2` can be the source of a returned snippet, whatever the query
embedding, `top_k`, or store contents. -/
theorem retrieval_user_scoping (store : List FileChunk) (u1 u2 : Nat)
    (qe : List ℚ) (top_k : Nat) (huser : u1 ≠ u2) :
    ∀ ctx ∈ (retrieve_relevant_context (some store) u1 qe top_k).2,
      ∃ c ∈ store, c.user_id = strNat u1 ∧ c.user_id ≠ strNat u2 ∧
        ctx = mkSnippet c (sqDist qe c.embedding) := by
  intro ctx hctx
  rcases mem_retrieve_snd hctx with ⟨p, hp, _, hctxe⟩
  rcases mem_chromaQuery hp with ⟨hmem, huid, hdist⟩
  refine ⟨p.1, hmem, huid, ?_, ?_⟩
  · rw [huid]
    intro h
    exact huser (strNat_injective h)
  · rw [hctxe, hdist]

/-- Test fixture: a chunk of user 1 at the query point, and a chunk of
user 2. -/
def exChunkU1 : FileChunk :=
  { doc_id := "user_1_file_f.pdf_chunk_0", text := "alpha", embedding := [0, 0]
    user_id := strNat 1, filename := "f.pdf", chunk_index := "0", total_chunks := "1"
    uploaded_at := "t", page_number := "1" }

def exChunkU2 : FileChunk :=
  { doc_id := "user_2_file_g.pdf_chunk_0", text := "beta", embedding := [0, 1]
    user_id := strNat 2, filename := "g.pdf", chunk_index := "0", total_chunks := "1"
    uploaded_at := "t", page_number := "2" }

def exStore : List FileChunk := [exChunkU1, exChunkU2]

set_option maxRecDepth 8000

theorem exQuery_eq : chromaQuery exStore [0, 0] 3 (strNat 1) = [(exChunkU1, 0)] := by
  simp [chromaQuery, exStore, exChunkU1, exChunkU2, strNat, natDigits, natDigitsAux,
    digitToChar, sqDist]

theorem exRetrieve_eq :
    (retrieve_relevant_context (some exStore) 1 [0, 0] 3).2 = [mkSnippet exChunkU1 0] := by
  rw [retrieve_snd_eq, exQuery_eq]
  norm_num [List.filterMap, similarityOf]

/-- Witness for C1 at the concrete two-user store. -/
theorem retrieval_user_scoping_witness :
    ∃ c ∈ exStore, c.user_id = strNat 1 ∧ c.user_id ≠ strNat 2 ∧
      mkSnippet exChunkU1 0 = mkSnippet c (sqDist [0, 0] c.embedding) :=
  retrieval_user_scoping exStore 1 2 [0, 0] 3 (by decide) (mkSnippet exChunkU1 0)
    (by rw [exRetrieve_eq]; exact List.mem_singleton.mpr rfl)

theorem retrieve_filterMap_eq (l : List (FileChunk × ℚ)) :
    l.filterMap (fun p => if (0.4 : ℚ) < similarityOf p.2 then some (mkSnippet p.1 p.2) else none)
      = (l.filter (fun p => decide ((0.4 : ℚ) < similarityOf p.2))).map
          (fun p => mkSnippet p.1 p.2) := by
  induction l with
  | nil => rfl
  | cons x xs ih => by_cases hx : (0.4 : ℚ) < similarityOf x.2 <;> simp [hx, ih]

/-- C4: every returned snippet has similarity strictly above the fixed 0.4
threshold; every query candidate whose similarity exceeds 0.4 is returned;
the returned sequence is ordered by descending similarity; candidate
distances are non-negative, so each candidate's similarity lies in (0, 1];
and `similarity = 1/(1+distance)` is monotonically decreasing in the
distance. -/
theorem retrieval_threshold_and_order (store : List FileChunk) (u : Nat)
    (qe : List ℚ) (top_k : Nat) :
    (∀ ctx ∈ (retrieve_relevant_context (some store) u qe top_k).2,
        (0.4 : ℚ) < ctx.similarity)
    ∧ (∀ p ∈ chromaQuery store qe top_k (strNat u),
        (0.4 : ℚ) < similarityOf p.2 →
          mkSnippet p.1 p.2 ∈ (retrieve_relevant_context (some store) u qe top_k).2)
    ∧ (retrieve_relevant_context (some store) u qe top_k).2.Pairwise
        (fun a b => b.similarity ≤ a.similarity)
    ∧ (∀ p ∈ chromaQuery store qe top_k (strNat u),
        0 ≤ p.2 ∧ 0 < similarityOf p.2 ∧ similarityOf p.2 ≤ 1)
    ∧ (∀ d1 d2 : ℚ, 0 ≤ d1 → d1 ≤ d2 → similarityOf d2 ≤ similarityOf d1) := by
  refine ⟨?_, ?_, ?_, ?_, ?_⟩
  · intro ctx hctx
    rcases mem_retrieve_snd hctx with ⟨p, _, hth, hctxe⟩
    rw [hctxe]
    exact hth
  · intro p hp hth
    rw [retrieve_snd_eq]
    exact List.mem_filterMap.mpr ⟨p, hp, if_pos hth⟩
  · rw [retrieve_snd_eq, retrieve_filterMap_eq]
    rw [List.pairwise_map]
    have hsorted := (chromaQuery_sorted store qe top_k (strNat u)).filter
      (fun p => decide ((0.4 : ℚ) < similarityOf p.2))
    refine hsorted.imp_of_mem ?_
    intro a b ha hb hab
    have ha' := mem_chromaQuery (List.mem_of_mem_filter ha)
    have h0 : 0 ≤ a.2 := ha'.2.2 ▸ sqDist_nonneg qe a.1.embedding
    exact similarityOf_antitone h0 hab
  · intro p hp
    have hq := mem_chromaQuery hp
    have h0 : 0 ≤ p.2 := hq.2.2 ▸ sqDist_nonneg qe p.1.embedding
    exact ⟨h0, similarityOf_pos h0, similarityOf_le_one h0⟩
  · intro d1 d2 h1 h12
    exact similarityOf_antitone h1 h12

/-- Witness for C4: at the concrete store, the returned snippet clears the
threshold, the above-threshold candidate is returned, and the similarity
function is decreasing between the concrete distances 0 and 1. -/
theorem retrieval_threshold_and_order_witness :
    ((0.4 : ℚ) < (mkSnippet exChunkU1 0).similarity)
    ∧ (mkSnippet exChunkU1 0 ∈ (retrieve_relevant_context (some exStore) 1 [0, 0] 3).2)
    ∧ (similarityOf 1 ≤ similarityOf 0) :=
  ⟨(retrieval_threshold_and_order exStore 1 [0, 0] 3).1 (mkSnippet exChunkU1 0)
      (by rw [exRetrieve_eq]; exact List.mem_singleton.mpr rfl),
   (retrieval_threshold_and_order exStore 1 [0, 0] 3).2.1 (exChunkU1, 0)
      (by rw [exQuery_eq]; exact List.mem_singleton.mpr rfl)
      (by norm_num [similarityOf]),
   (retrieval_threshold_and_order exStore 1 [0, 0] 3).2.2.2.2 0 1 (by norm_num) (by norm_num)⟩

/-! ## Title assignment and stability -/

theorem take_of_length_le {s : String} {n : Nat} (h : s.length ≤ n) : s.take n = s := by
  rw [String.take_eq]
  cases s with
  | mk data => exact congrArg String.mk (List.take_of_length_le h)

/-- C5: a freshly created session carries the placeholder title, and after
the first completed user/assistant exchange the title is the first user
message truncated at 50 characters, with `"..."` appended exactly when the
original exceeded 50 characters (for a short prompt the title is the prompt
itself). -/
theorem first_exchange_title (created prompt response : String) :
    (newChatData created).title = "New Chat"
    ∧ get_chat_title [] = "New Chat"
    ∧ (stepSession (newChatData created) (AppEvent.exchange prompt response)).messages
        = [⟨"user", prompt⟩, ⟨"assistant", response⟩]
    ∧ (stepSession (newChatData created) (AppEvent.exchange prompt response)).title
        = (if 50 < prompt.length then prompt.take 50 ++ "..." else prompt.take 50)
    ∧ (prompt.length ≤ 50 →
        (stepSession (newChatData created) (AppEvent.exchange prompt response)).title = prompt) := by
  refine ⟨rfl, rfl, rfl, rfl, ?_⟩
  intro hlen
  show (if 50 < prompt.length then prompt.take 50 ++ "..." else prompt.take 50) = prompt
  rw [if_neg (by omega), take_of_length_le hlen]

/-- Witness for C5 at a short and a long prompt. -/
theorem first_exchange_title_witness :
    (stepSession (newChatData "t0") (AppEvent.exchange "hello" "hi")).title = "hello" :=
  (first_exchange_title "t0" "hello" "hi").2.2.2.2 (by decide)

/-- The function `get_chat_title` only looks at the first message. -/
theorem get_chat_title_cons (m : Message) (rest : List Message) :
    get_chat_title (m :: rest)
      = if m.role = "user" then
          (if 50 < m.content.length then m.content.take 50 ++ "..." else m.content.take 50)
        else "New Chat" := rfl

/-- Invariant behind C6: the first message is a fixed user message and the
title is the one computed from it. -/
def titleSet (prompt : String) (s : ChatData) : Prop :=
  (∃ rest, s.messages = (⟨"user", prompt⟩ : Message) :: rest)
  ∧ s.title = get_chat_title [⟨"user", prompt⟩]

theorem titleSet_step {prompt : String} {s : ChatData} (hs : titleSet prompt s)
    (e : AppEvent) (he : e ≠ AppEvent.clearChat) : titleSet prompt (stepSession s e) := by
  obtain ⟨⟨rest, hmsgs⟩, htitle⟩ := hs
  cases e with
  | exchange p r =>
    refine ⟨⟨rest ++ [⟨"user", p⟩, ⟨"assistant", r⟩], by simp [stepSession, hmsgs]⟩, ?_⟩
    simp only [stepSession]
    rw [if_neg (by simp [hmsgs])]
    exact htitle
  | render =>
    have hne : s.messages.isEmpty = false := by rw [hmsgs]; rfl
    refine ⟨⟨rest, by simp [stepSession, hne, hmsgs]⟩, ?_⟩
    simp only [stepSession, hne, Bool.false_eq_true, if_false]
    rw [hmsgs, get_chat_title_cons]
    rfl
  | clearChat => exact absurd rfl he
  | switchAway => exact ⟨⟨rest, hmsgs⟩, htitle⟩

theorem titleSet_foldl {prompt : String} {s : ChatData} (hs : titleSet prompt s) :
    ∀ evs : List AppEvent, AppEvent.clearChat ∉ evs →
      titleSet prompt (List.foldl stepSession s evs) := by
  intro evs
  induction evs generalizing s with
  | nil => intro _; exact hs
  | cons e rest ih =>
    intro hnc
    simp only [List.foldl_cons]
    exact ih (titleSet_step hs e (fun he => hnc (he ▸ List.mem_cons_self e rest)))
      (fun hmem => hnc (List.mem_cons_of_mem e hmem))

/-- Counterexample to C6 as stated: after the first exchange sets the title
to "hello", clearing the chat, completing a new exchange and rendering the
sidebar rewrites the title to "bye". -/
theorem title_never_changes_counterexample :
    (stepSession (newChatData "t0") (AppEvent.exchange "hello" "hi")).title = "hello"
    ∧ (List.foldl stepSession (stepSession (newChatData "t0") (AppEvent.exchange "hello" "hi"))
        [AppEvent.clearChat, AppEvent.exchange "bye" "ok", AppEvent.render]).title = "bye" := by
  exact ⟨by decide, by decide⟩

/-- C6 amended: once the first completed exchange has set the title from the
first user message, every further sequence of exchanges, renders and session
switches that does not clear the chat leaves the title unchanged. -/
theorem title_stable_without_clear (created prompt response : String)
    (evs : List AppEvent) (hnc : AppEvent.clearChat ∉ evs) :
    (List.foldl stepSession (stepSession (newChatData created)
        (AppEvent.exchange prompt response)) evs).title
      = (stepSession (newChatData created) (AppEvent.exchange prompt response)).title := by
  have hinit : titleSet prompt (stepSession (newChatData created)
      (AppEvent.exchange prompt response)) := by
    refine ⟨⟨[⟨"assistant", response⟩], rfl⟩, ?_⟩
    simp only [stepSession, newChatData]
    rw [if_pos (by simp), List.nil_append, get_chat_title_cons]
    rfl
  rw [(titleSet_foldl hinit evs hnc).2, hinit.2]

/-- Witness for the amended C6 over a concrete event sequence without a
clear. -/
theorem title_stable_without_clear_witness :
    (List.foldl stepSession (stepSession (newChatData "t0")
        (AppEvent.exchange "hello" "hi"))
        [AppEvent.render, AppEvent.exchange "more" "text", AppEvent.switchAway]).title
      = (stepSession (newChatData "t0") (AppEvent.exchange "hello" "hi")).title :=
  title_stable_without_clear "t0" "hello" "hi"
    [AppEvent.render, AppEvent.exchange "more" "text", AppEvent.switchAway] (by decide)

/-! ## Deletion invariant -/

/-- The state invariant of the chat list: some session exists and the active
id is a key of an existing session. -/
def validChatState (st : ChatSessions × String) : Prop :=
  st.1 ≠ [] ∧ st.2 ∈ st.1.map Prod.fst

theorem delete_chat_preserves {st : ChatSessions × String} (h : validChatState st)
    (chat_id : String) : validChatState (delete_chat st.1 st.2 chat_id) := by
  obtain ⟨hne, hcur⟩ := h
  unfold delete_chat
  by_cases hguard : 1 < st.1.length ∧ st.1.any (fun p => p.1 = chat_id)
  · rw [if_pos hguard]
    obtain ⟨hlen, hany⟩ := hguard
    rcases List.any_eq_true.mp hany with ⟨q, hq, hqid⟩
    have herase : (st.1.eraseP (fun p => p.1 = chat_id)).length = st.1.length - 1 :=
      List.length_eraseP_of_mem hq hqid
    have hrem : st.1.eraseP (fun p => p.1 = chat_id) ≠ [] := by
      intro hnil
      rw [hnil] at herase
      simp at herase
      omega
    refine ⟨hrem, ?_⟩
    by_cases hcd : chat_id = st.2
    · rw [if_pos hcd]
      cases hrm : st.1.eraseP (fun p => p.1 = chat_id) with
      | nil => exact absurd hrm hrem
      | cons q rest =>
        simp only [hrm, List.head?_cons, Option.map_some, Option.getD_some, List.map_cons]
        exact List.mem_cons_self _ _
    · rw [if_neg hcd]
      rcases List.mem_map.mp hcur with ⟨e, he, hek⟩
      have hee : e ∈ st.1.eraseP (fun p => p.1 = chat_id) := by
        refine (List.mem_eraseP_of_neg ?_).mpr he
        rw [decide_eq_true_iff, hek]
        exact fun hx => hcd hx.symm
      exact hek ▸ List.mem_map_of_mem Prod.fst hee
  · rw [if_neg hguard]
    exact ⟨hne, hcur⟩

theorem delete_chat_foldl {st : ChatSessions × String} (h : validChatState st) :
    ∀ deletions : List String,
      validChatState (deletions.foldl (fun acc cid => delete_chat acc.1 acc.2 cid) st) := by
  intro deletions
  induction deletions generalizing st with
  | nil => exact h
  | cons cid rest ih =>
    simp only [List.foldl_cons]
    exact ih (delete_chat_preserves h cid)

/-- C7: as long as the collection starts non-empty with a valid active id,
any sequence of deletions the interface permits leaves at least one session,
keeps the active id pointing at an existing session, and the delete handler
refuses to act on a sole remaining session. -/
theorem deletion_invariant (sessions : ChatSessions) (current : String)
    (deletions : List String) (hne : sessions ≠ [])
    (hcur : current ∈ sessions.map Prod.fst) :
    (deletions.foldl (fun acc cid => delete_chat acc.1 acc.2 cid) (sessions, current)).1 ≠ []
    ∧ (deletions.foldl (fun acc cid => delete_chat acc.1 acc.2 cid) (sessions, current)).2
        ∈ (deletions.foldl (fun acc cid => delete_chat acc.1 acc.2 cid)
            (sessions, current)).1.map Prod.fst
    ∧ ∀ (l : ChatSessions) (cur cid : String), l.length ≤ 1 →
        delete_chat l cur cid = (l, cur) := by
  have hst : validChatState (sessions, current) := ⟨hne, hcur⟩
  have hfold := delete_chat_foldl hst deletions
  refine ⟨hfold.1, hfold.2, ?_⟩
  intro l cur cid hlen
  unfold delete_chat
  rw [if_neg]
  intro hguard
  omega

/-- Witness for C7: two sessions, delete the active one; a session is left. -/
theorem deletion_invariant_witness :
    (["a"].foldl (fun acc cid => delete_chat acc.1 acc.2 cid)
        ([("a", newChatData "t1"), ("b", newChatData "t2")], "a")).1 ≠ [] :=
  (deletion_invariant [("a", newChatData "t1"), ("b", newChatData "t2")] "a" ["a"]
    (by decide) (by decide)).1

/-! ## Bounded history sent to the model -/

/-- C9: in each turn the list sent to the model is the optional system
message followed by the most recent `MAX_CONTEXT_MESSAGES` (20) messages of
the session (the whole history when it is no longer than 20), as a suffix in
original order, while the session keeps the full history: the turn appends
the user prompt and the completed assistant reply without truncation. -/
theorem history_truncation (gc : String) (hc : Bool) (ctxs : List ContextSnippet)
    (messages : List Message) (prompt response : String) :
    (run_turn gc hc ctxs messages prompt response).1
        = messages ++ [⟨"user", prompt⟩, ⟨"assistant", response⟩]
    ∧ (run_turn gc hc ctxs messages prompt response).2
        = system_message_list gc hc ctxs
            ++ recent_messages (messages ++ [⟨"user", prompt⟩])
    ∧ (MAX_CONTEXT_MESSAGES < (messages ++ [(⟨"user", prompt⟩ : Message)]).length →
        (recent_messages (messages ++ [⟨"user", prompt⟩])).length = MAX_CONTEXT_MESSAGES
        ∧ recent_messages (messages ++ [⟨"user", prompt⟩])
            <:+ messages ++ [⟨"user", prompt⟩])
    ∧ ((messages ++ [(⟨"user", prompt⟩ : Message)]).length ≤ MAX_CONTEXT_MESSAGES →
        recent_messages (messages ++ [⟨"user", prompt⟩])
          = messages ++ [⟨"user", prompt⟩]) := by
  refine ⟨by simp [run_turn], rfl, ?_, ?_⟩
  · intro hlong
    unfold recent_messages
    rw [if_pos hlong]
    constructor
    · rw [List.length_drop]
      omega
    · exact List.drop_suffix _ _
  · intro hshort
    unfold recent_messages
    rw [if_neg (by omega)]

/-- Witness for C9: a 21-message history plus the new prompt truncates to
exactly 20 messages. -/
theorem history_truncation_witness :
    (recent_messages (List.replicate 21 (⟨"user", "m"⟩ : Message)
        ++ [⟨"user", "p"⟩])).length = MAX_CONTEXT_MESSAGES
    ∧ recent_messages (List.replicate 21 (⟨"user", "m"⟩ : Message) ++ [⟨"user", "p"⟩])
        <:+ List.replicate 21 (⟨"user", "m"⟩ : Message) ++ [⟨"user", "p"⟩] :=
  (history_truncation "" false [] (List.replicate 21 ⟨"user", "m"⟩) "p" "r").2.2.1
    (by simp [MAX_CONTEXT_MESSAGES])
